import Mathlib

/-!
Verification of the staticpub note-to-activity pipeline (src/staticpub.py).

The Python program is shallowly embedded: JSON-like values become the
inductive `Value`, Python dicts become ordered association lists (`PyDict`)
with insertion-order update semantics, exceptions become `Except`/`Option`,
and the wall clock (`now()`) becomes an explicit `nowStr` parameter.
-/

/-- JSON-like values manipulated by the program (`GenericObjectTypeValues`). -/
inductive Value where
  | vstr : String → Value
  | vbool : Bool → Value
  | vint : Int → Value
  | vlist : List Value → Value
  | vdict : List (String × Value) → Value
  | vnull : Value

/-- A Python dict as an insertion-ordered association list. -/
abbrev PyDict := List (String × Value)

/-- `d.get(k)` / `d[k]` lookup: first matching key. -/
def pyGet : PyDict → String → Option Value
  | [], _ => none
  | (k₁, v) :: rest, k => if k₁ = k then some v else pyGet rest k

/-- `d.get(k, dflt)`. -/
def pyGetD (d : PyDict) (k : String) (dflt : Value) : Value :=
  (pyGet d k).getD dflt

/-- `d[k] = v`: replace the value in place when the key is present,
otherwise append at the end (Python dict insertion order). -/
def pySet : PyDict → String → Value → PyDict
  | [], k, v => [(k, v)]
  | (k₁, v₁) :: rest, k, v =>
    if k₁ = k then (k, v) :: rest else (k₁, v₁) :: pySet rest k v

/-- `del d[k]`: remove the entry for `k` (keys are unique in a Python dict). -/
def pyDel (d : PyDict) (k : String) : PyDict :=
  d.filter (fun p => !(p.1 == k))

/-- `d.update(u)`: set every pair of `u` in order. -/
def pyUpdate (d u : PyDict) : PyDict :=
  u.foldl (fun acc p => pySet acc p.1 p.2) d

/-- `dict(pairs)` built from string pairs: last value wins, first position kept. -/
def pyFromPairs (ps : List (String × String)) : PyDict :=
  ps.foldl (fun acc p => pySet acc p.1 (Value.vstr p.2)) []

/-- Python truthiness of a `Value` (empty string/list/dict, `False`, `0`,
`None` are falsy). -/
def truthy : Value → Bool
  | .vstr s => !(s == "")
  | .vbool b => b
  | .vint n => !(n == 0)
  | .vlist l => !l.isEmpty
  | .vdict d => !d.isEmpty
  | .vnull => false

/-- Sequencing of a list of options: `some` exactly when every element is. -/
def seqOption {α : Type} : List (Option α) → Option (List α)
  | [] => some []
  | none :: _ => none
  | some a :: rest => (seqOption rest).map (a :: ·)

-- ## String helpers

/-- The whitespace characters stripped by Python `str.strip()` (ASCII part). -/
def isPySpace (c : Char) : Bool :=
  c == ' ' || c == '\t' || c == '\n' || c == '\r' ||
    c == Char.ofNat 11 || c == Char.ofNat 12

/-- Python `s.strip()`. -/
def pyStrip (s : String) : String :=
  String.mk (((s.data.dropWhile isPySpace).reverse.dropWhile isPySpace).reverse)

/-- `remove_newlines_strip`: `line.replace("\n", "").strip()`. -/
def remove_newlines_strip (line : String) : String :=
  pyStrip (String.mk (line.data.filter (fun c => !(c == '\n'))))

/-- Helper for `rsplit(".", 1)`: split a character list at its LAST dot,
`none` when there is no dot. -/
def rsplitDotAux : List Char → Option (List Char × List Char)
  | [] => none
  | c :: rest =>
    match rsplitDotAux rest with
    | some (a, b) => some (c :: a, b)
    | none => if c = '.' then some ([], rest) else none

/-- Python `s.rsplit(".", 1)` unpacked into two parts; `none` models the
`ValueError` raised by unpacking a one-element list (no dot in `s`). -/
def rsplitDot (s : String) : Option (String × String) :=
  (rsplitDotAux s.data).map (fun p => (String.mk p.1, String.mk p.2))

/-- Characterwise prefix test (structural version of `str.startswith`). -/
def startsAux : List Char → List Char → Bool
  | [], _ => true
  | _ :: _, [] => false
  | p :: ps, c :: cs => p == c && startsAux ps cs

/-- Python `s.startswith(pre)`. -/
def pyStartsWith (s pre : String) : Bool :=
  startsAux pre.data s.data

/-- Python `s.split(": ")`: split on every non-overlapping occurrence of
the two-character separator, left to right. -/
def splitColonSpace : List Char → List (List Char)
  | [] => [[]]
  | ':' :: ' ' :: rest => [] :: splitColonSpace rest
  | c :: rest =>
    match splitColonSpace rest with
    | r :: rs => (c :: r) :: rs
    | [] => [[c]]

/-- Python `s.split("/")`. -/
def splitSlash : List Char → List (List Char)
  | [] => [[]]
  | '/' :: rest => [] :: splitSlash rest
  | c :: rest =>
    match splitSlash rest with
    | r :: rs => (c :: r) :: rs
    | [] => [[c]]

/-- `Path(s).name`: the last `/`-separated component. -/
def pathName (s : String) : String :=
  String.mk ((splitSlash s.data).getLastD [])

-- ## Datetime parsing (str_to_datetime)

/-- Value of a decimal digit character. -/
def digitVal (c : Char) : Option Nat :=
  if c.isDigit then some (c.toNat - 48) else none

/-- Greedily read one or two decimal digits (strptime `%m`, `%d`, `%H`,
`%M`, `%S` match 1-2 digits). -/
def take2 : List Char → Option (Nat × List Char)
  | [] => none
  | c :: cs =>
    match digitVal c with
    | none => none
    | some d =>
      match cs with
      | c₂ :: cs₂ =>
        match digitVal c₂ with
        | some d₂ => some (10 * d + d₂, cs₂)
        | none => some (d, cs)
      | [] => some (d, [])

/-- Read exactly four decimal digits (strptime `%Y`). -/
def take4 : List Char → Option (Nat × List Char)
  | c₁ :: c₂ :: c₃ :: c₄ :: cs =>
    match digitVal c₁, digitVal c₂, digitVal c₃, digitVal c₄ with
    | some a, some b, some c, some d =>
      some (((a * 10 + b) * 10 + c) * 10 + d, cs)
    | _, _, _, _ => none
  | _ => none

/-- Consume one expected literal character. -/
def expectChar (c : Char) : List Char → Option (List Char)
  | x :: xs => if x = c then some xs else none
  | [] => none

/-- Consume one character from a two-element set (strptime compiles its
format with IGNORECASE, so the literals `T` and `Z` match either case). -/
def expectChar2 (c₁ c₂ : Char) : List Char → Option (List Char)
  | x :: xs => if x = c₁ ∨ x = c₂ then some xs else none
  | [] => none

/-- Gregorian leap year. -/
def isLeap (y : Nat) : Bool :=
  y % 4 == 0 && (!(y % 100 == 0) || y % 400 == 0)

/-- Days in a month. -/
def daysInMonth (y m : Nat) : Nat :=
  if m = 2 then (if isLeap y then 29 else 28)
  else if m = 4 ∨ m = 6 ∨ m = 9 ∨ m = 11 then 30
  else 31

/-- `str_to_datetime`: `datetime.strptime(s, "%Y-%m-%dT%H:%M:%SZ")`,
returning the timestamp encoded as a single natural number that orders
exactly like the parsed datetime, or `none` for the `ValueError` raised on
a string not matching the format (or with out-of-range fields). -/
def str_to_datetime (s : String) : Option Nat := do
  let cs := s.data
  let (y, cs) ← take4 cs
  let cs ← expectChar '-' cs
  let (mo, cs) ← take2 cs
  let cs ← expectChar '-' cs
  let (d, cs) ← take2 cs
  let cs ← expectChar2 'T' 't' cs
  let (h, cs) ← take2 cs
  let cs ← expectChar ':' cs
  let (mi, cs) ← take2 cs
  let cs ← expectChar ':' cs
  let (sec, cs) ← take2 cs
  let cs ← expectChar2 'Z' 'z' cs
  if cs = [] ∧ 1 ≤ y ∧ 1 ≤ mo ∧ mo ≤ 12 ∧ 1 ≤ d ∧ d ≤ daysInMonth y mo ∧
      h ≤ 23 ∧ mi ≤ 59 ∧ sec ≤ 59 then
    some (((((y * 13 + mo) * 32 + d) * 24 + h) * 60 + mi) * 60 + sec)
  else
    none

-- ## Configuration

/-- The configuration values the core reads (sections `Instance`, `Actor`,
`Outbox` of the ini file). `paginate_by` is already converted by
`int(config["Outbox"].get("paginate_by", "0"))`. -/
structure Config where
  domain : String
  actor_id : String
  host : String
  preferredUsername : String
  actorName : String
  summary : String
  discoverable : Bool
  banner : String
  icon : String
  paginate_by : Int

-- ## Pseudo-note parser (parse_notes)

/-- Indices (from `start`) of the lines starting with `"---"`; this is the
`enumerate`-and-filter comprehension of `parse_notes`. -/
def delimIdxsFrom (start : Nat) : List String → List Nat
  | [] => []
  | l :: ls =>
    if pyStartsWith l "---" then start :: delimIdxsFrom (start + 1) ls
    else delimIdxsFrom (start + 1) ls

/-- Indices of the delimiter lines of a pseudo note. -/
def delimiterIdxs (lines : List String) : List Nat :=
  delimIdxsFrom 0 lines

/-- The header block `pseudo_note[headers_begin + 1 : headers_end]`. -/
def headerSlice (lines : List String) (hb he : Nat) : List String :=
  (lines.drop (hb + 1)).take (he - (hb + 1))

/-- One header line: `remove_newlines_strip(kv).split(": ")` unpacked into
exactly `(key, value)` and stripped; `none` models the `ValueError` raised
when the split does not yield exactly two parts. -/
def parseHeaderLine (l : String) : Option (String × String) :=
  match splitColonSpace (remove_newlines_strip l).data with
  | [k, v] => some (pyStrip (String.mk k), pyStrip (String.mk v))
  | _ => none

/-- The `object_note` literal built before the header merge. -/
def baseNote (cfg : Config) (filename note_id : String) : PyDict :=
  [("@context", Value.vlist
      [Value.vstr "https://www.w3.org/ns/activitystreams",
       Value.vdict [("filename", Value.vdict
         [("@id", Value.vstr "http://schema.org/url"),
          ("@type", Value.vstr "@id")])]]),
   ("id", Value.vstr (cfg.domain ++ "/posts/" ++ note_id)),
   ("to", Value.vlist [Value.vstr "https://www.w3.org/ns/activitystreams#Public"]),
   ("sensitive", Value.vbool false),
   ("filename", Value.vstr filename)]

/-- The ways `parse_notes` can raise. `malformedHeader` is the `ValueError`
from unpacking the delimiter-index list (caught, reported and re-raised);
`filenameUnpack` the `ValueError` from `filename.rsplit(".", 1)` unpacking;
`malformedHeaderLine` the `ValueError` from unpacking a header-line split. -/
inductive ParseErr where
  | malformedHeader : ParseErr
  | filenameUnpack : ParseErr
  | malformedHeaderLine : ParseErr
  deriving DecidableEq

/-- The body of `parse_notes` after the delimiter unpacking: id derivation,
base object, header merge, content, `published` default. -/
def parseBody (cfg : Config) (nowStr pseudo_note_filename : String)
    (headerLines : List String) (content : String) : Except ParseErr PyDict :=
  match rsplitDot pseudo_note_filename with
  | none => .error .filenameUnpack
  | some (note_id, _) =>
    let base := baseNote cfg pseudo_note_filename note_id
    match seqOption (headerLines.map parseHeaderLine) with
    | none => .error .malformedHeaderLine
    | some pairs =>
      let n₁ := pyUpdate base (pyFromPairs pairs)
      let n₂ := pySet n₁ "content" (Value.vstr content)
      .ok (if (pyGet n₂ "published").isSome then n₂
           else pySet n₂ "published" (Value.vstr nowStr))

/-- `parse_notes(config, pseudo_note_filename, pseudo_note)`, with the wall
clock `now()` passed explicitly as `nowStr`. -/
def parse_notes (cfg : Config) (nowStr : String) (pseudo_note_filename : String)
    (pseudo_note : List String) : Except ParseErr PyDict :=
  match delimiterIdxs pseudo_note with
  | [headers_begin, headers_end] =>
    parseBody cfg nowStr pseudo_note_filename
      (headerSlice pseudo_note headers_begin headers_end)
      (String.join (pseudo_note.drop (headers_end + 1)))
  | _ => .error .malformedHeader

-- ## Activity derivation (generate_create_activity)

/-- `generate_create_activity(config, note)` in state-passing form: returns
the Create activity TOGETHER with the note as it stands afterwards (the
Python function mutates its argument with `del note["@context"]`). `none`
models the `AssertionError` on a note without a truthy `@context`, and the
errors from a missing/dotless `filename`. -/
def generate_create_activity (cfg : Config) (nowStr : String)
    (note : PyDict) : Option (PyDict × PyDict) :=
  if truthy (pyGetD note "@context" Value.vnull) then
    let note₁ := pyDel note "@context"
    match pyGet note₁ "filename" with
    | some (Value.vstr filename) =>
      match rsplitDot filename with
      | some (note_id, _) =>
        some
          ([("id", Value.vstr (cfg.domain ++ "/posts/" ++ note_id)),
            ("type", Value.vstr "Create"),
            ("actor", Value.vstr cfg.actor_id),
            ("published", pyGetD note₁ "published" (Value.vstr nowStr)),
            ("to", Value.vlist
              [Value.vstr "https://www.w3.org/ns/activitystreams#Public"]),
            ("object", Value.vdict note₁)],
           note₁)
      | none => none
    | _ => none
  else none

-- ## Collection assembler (create_outbox)

/-- The sort key `lambda note: str_to_datetime(cast(str, note.get("published")))`:
`none` models the exception raised when `published` is absent, not a string,
or not in the `%Y-%m-%dT%H:%M:%SZ` format. -/
def pySortKey (note : PyDict) : Option Nat :=
  match pyGet note "published" with
  | some (Value.vstr s) => str_to_datetime s
  | _ => none

/-- Stable insertion (descending by key): the new element, which comes
earlier in the input, goes before every element of equal key. -/
def insertDesc {α : Type} (key : α → Nat) (a : α) : List α → List α
  | [] => [a]
  | b :: bs => if key a < key b then b :: insertDesc key a bs else a :: b :: bs

/-- A stable sort, descending by key: extensionally the behavior of
`sorted(notes, key=..., reverse=True)`. -/
def sortByKeyDesc {α : Type} (key : α → Nat) : List α → List α
  | [] => []
  | a :: as => insertDesc key a (sortByKeyDesc key as)

/-- The `sorted(...)` call of `create_outbox`: Python computes the key of
every element (raising on the first failure) and sorts stably, newest
first. -/
def sortNotes (notes : List PyDict) : Option (List PyDict) :=
  if notes.all (fun n => (pySortKey n).isSome) then
    some (sortByKeyDesc (fun n => (pySortKey n).getD 0) notes)
  else none

/-- Python `l[:n]` for an `int` bound `n` (a negative bound counts from the
end, saturating at the empty list). -/
def pySliceTo {α : Type} (n : Int) (l : List α) : List α :=
  if 0 ≤ n then l.take n.toNat
  else l.take (l.length - (-n).toNat)

/-- The `toots` document literal of `create_outbox`. -/
def tootsDict (cfg : Config) (items : List Value) : PyDict :=
  [("@context", Value.vstr "https://www.w3.org/ns/activitystreams"),
   ("id", Value.vstr (cfg.domain ++ "/toots")),
   ("type", Value.vstr "OrderedCollectionPage"),
   ("prev", Value.vstr (cfg.domain ++ "/toots")),
   ("partOf", Value.vstr (cfg.domain ++ "/toots")),
   ("totalItems", Value.vint items.length),
   ("orderedItems", Value.vlist items)]

/-- The `outbox` document literal of `create_outbox`. -/
def outboxDict (cfg : Config) (items : List Value) : PyDict :=
  [("@context", Value.vstr "https://www.w3.org/ns/activitystreams"),
   ("id", Value.vstr (cfg.domain ++ "/outbox")),
   ("type", Value.vstr "OrderedCollection"),
   ("totalItems", Value.vint items.length),
   ("first", Value.vstr (cfg.domain ++ "/toots"))]

/-- The truncation step `if paginate_by and len(notes_sorted) > paginate_by:
notes_sorted = notes_sorted[:paginate_by]` (a Python `int` is truthy when
nonzero). -/
def keptNotes (p : Int) (notes_sorted : List PyDict) : List PyDict :=
  if p ≠ 0 ∧ p < (notes_sorted.length : Int) then pySliceTo p notes_sorted
  else notes_sorted

/-- `create_outbox(config, notes)`: sort descending by published time,
truncate when `paginate_by` is truthy and exceeded, derive one Create
activity per surviving note, and build the two documents. `none` models
an uncaught exception (bad `published`, or a note failing
`generate_create_activity`). -/
def create_outbox (cfg : Config) (nowStr : String) (notes : List PyDict) :
    Option (PyDict × PyDict) :=
  (sortNotes notes).bind (fun notes_sorted =>
    (seqOption ((keptNotes cfg.paginate_by notes_sorted).map (fun note =>
        (generate_create_activity cfg nowStr note).map
          (fun p => Value.vdict p.1)))).map
      (fun items => (tootsDict cfg items, outboxDict cfg items)))

-- ## Actor endpoint (create_actor)

/-- `media_mimetype(filename)`: guess from the final extension; `none`
models the `ValueError` from `rsplit` on a dotless filename. -/
def media_mimetype (filename : String) : Option String :=
  (rsplitDot filename).map
    (fun p => if p.2 = "png" then "image/png" else "image/jpeg")

/-- The `actor_object` literal of `create_actor`. -/
def actorBase (cfg : Config) : PyDict :=
  [("@context", Value.vlist
      [Value.vstr "https://www.w3.org/ns/activitystreams",
       Value.vstr "https://w3id.org/security/v1"]),
   ("id", Value.vstr cfg.actor_id),
   ("type", Value.vstr "Person"),
   ("following", Value.vstr (cfg.domain ++ "/following")),
   ("followers", Value.vstr (cfg.domain ++ "/followers")),
   ("inbox", Value.vstr (cfg.domain ++ "/inbox")),
   ("outbox", Value.vstr (cfg.domain ++ "/outbox")),
   ("preferredUsername", Value.vstr cfg.preferredUsername),
   ("name", Value.vstr cfg.actorName),
   ("summary", Value.vstr cfg.summary),
   ("url", Value.vstr cfg.domain),
   ("manuallyApprovesFollowers", Value.vbool true),
   ("discoverable", Value.vbool cfg.discoverable),
   ("published", Value.vstr "2023-02-09T00:00:00Z")]

/-- An `Image` entry of the actor document. -/
def imageEntry (cfg : Config) (mt path : String) : Value :=
  Value.vdict
    [("type", Value.vstr "Image"),
     ("mediaType", Value.vstr mt),
     ("url", Value.vstr (cfg.domain ++ "/" ++ pathName path))]

/-- `create_actor(config, has_featured_note)` with the filesystem modelled
by the predicate `isFile`; returns the actor document that is written, or
`none` when the function raises (a `ValueError` from `media_mimetype`, or
the `AssertionError` in `copy` when the source is not a file). NOTE: as in
the source, BOTH image blocks are guarded by `banner_path.is_file()`. -/
def create_actor (cfg : Config) (isFile : String → Bool)
    (has_featured_note : Bool) : Option PyDict :=
  let a₀ := actorBase cfg
  let a₁ := if has_featured_note then
      pySet a₀ "featured" (Value.vstr (cfg.domain ++ "/featured"))
    else a₀
  let bannerStep : Option PyDict :=
    if isFile cfg.banner then
      match media_mimetype (pathName cfg.banner) with
      | none => none
      | some mt => some (pySet a₁ "image" (imageEntry cfg mt cfg.banner))
    else some a₁
  match bannerStep with
  | none => none
  | some a₂ =>
    if isFile cfg.banner then
      match media_mimetype (pathName cfg.icon) with
      | none => none
      | some mt =>
        let a₃ := pySet a₂ "icon" (imageEntry cfg mt cfg.icon)
        if isFile cfg.icon then some a₃ else none
    else some a₂

-- ## Concrete fixtures

/-- A concrete configuration used by the concrete instances below. -/
def cfgEx : Config :=
  { domain := "https://example.com"
    actor_id := "https://example.com/actor"
    host := "example.com"
    preferredUsername := "alice"
    actorName := "Alice"
    summary := "hi"
    discoverable := true
    banner := "files/banner.png"
    icon := "files/icon.png"
    paginate_by := 0 }

/-- A fixed clock value for the concrete instances. -/
def nowEx : String := "2024-06-01T12:00:00Z"

/-- A concrete note carrying a context marker. -/
def noteEx : PyDict :=
  [("@context", Value.vstr "ctx"),
   ("filename", Value.vstr "hello.txt"),
   ("published", Value.vstr "2024-01-01T00:00:00Z"),
   ("content", Value.vstr "hi")]

/-- A second concrete note, published one day later. -/
def noteEx2 : PyDict :=
  [("@context", Value.vstr "ctx"),
   ("filename", Value.vstr "world.txt"),
   ("published", Value.vstr "2024-01-02T00:00:00Z"),
   ("content", Value.vstr "yo")]

/-- The note parsed from a concrete well-formed two-delimiter input. -/
def noteParsedEx : PyDict :=
  (parse_notes cfgEx nowEx "hello.txt" ["---\n", "---\n", "body\n"]).toOption.getD []

/-- The Create activity derived from the concrete note `noteEx`. -/
def createEx : PyDict :=
  ((generate_create_activity cfgEx nowEx noteEx).map Prod.fst).getD []

/-- The state of `noteEx` after derivation has stripped its `@context`. -/
def noteExAfter : PyDict :=
  ((generate_create_activity cfgEx nowEx noteEx).map Prod.snd).getD []

/-- A note whose `published` header used a different date format. -/
def badNote : PyDict := [("published", Value.vstr "2024-01-01")]

/-- The concrete outbox documents for two valid notes (no pagination). -/
def outboxResEx : PyDict × PyDict :=
  (create_outbox cfgEx nowEx [noteEx, noteEx2]).getD ([], [])

/-- The orderedItems of the concrete outbox for two valid notes. -/
def itemsEx : List Value :=
  match pyGet outboxResEx.1 "orderedItems" with
  | some (Value.vlist items) => items
  | _ => []

-- ## Observation functions used by the claims

/-- The retained count of the truncation step, as a function of the page
size and the input length (the amended C4 arithmetic): `min` for a positive
page size, everything for zero, and a slice-from-the-end for a negative
page size. -/
def truncatedCount (p : Int) (n : Nat) : Nat :=
  if 0 < p then min p.toNat n
  else if p = 0 then n
  else n - (-p).toNat

/-- The published-time key of an emitted activity value, read back exactly
the way the sort key reads it from a note. -/
def actKey (v : Value) : Nat :=
  match v with
  | Value.vdict d => (pySortKey d).getD 0
  | _ => 0

-- ## Dictionary lemmas

theorem pyGet_pySet_self (d : PyDict) (k : String) (v : Value) :
    pyGet (pySet d k v) k = some v := by
  induction d with
  | nil => simp [pySet, pyGet]
  | cons p rest ih =>
    obtain ⟨k₁, v₁⟩ := p
    by_cases h : k₁ = k
    · simp [pySet, pyGet, h]
    · simp [pySet, pyGet, h, ih]

theorem pyGet_pySet_ne (d : PyDict) (k₁ k : String) (v : Value) (h : k₁ ≠ k) :
    pyGet (pySet d k₁ v) k = pyGet d k := by
  induction d with
  | nil => simp [pySet, pyGet, h]
  | cons p rest ih =>
    obtain ⟨k₂, v₂⟩ := p
    by_cases h₂ : k₂ = k₁
    · subst h₂; simp [pySet, pyGet, h]
    · by_cases h₃ : k₂ = k
      · subst h₃; simp [pySet, pyGet, h₂, Ne.symm h]
      · simp [pySet, pyGet, h₂, h₃, ih]

theorem mem_pySet (d : PyDict) (k : String) (v : Value) (q : String × Value)
    (h : q ∈ pySet d k v) : q.1 = k ∨ q ∈ d := by
  induction d with
  | nil => simp [pySet] at h; simp [h]
  | cons p rest ih =>
    obtain ⟨k₁, v₁⟩ := p
    by_cases h₁ : k₁ = k
    · simp [pySet, h₁] at h
      rcases h with h | h
      · left; simp [h]
      · right; simp [h]
    · simp [pySet, h₁] at h
      rcases h with h | h
      · right; simp [h]
      · rcases ih h with h₂ | h₂
        · left; exact h₂
        · right; simp [h₂]

theorem pyGet_pyUpdate_not_mem (d u : PyDict) (k : String)
    (h : ∀ p ∈ u, p.1 ≠ k) : pyGet (pyUpdate d u) k = pyGet d k := by
  induction u generalizing d with
  | nil => rfl
  | cons p rest ih =>
    have hp : p.1 ≠ k := h p (by simp)
    have : pyUpdate d (p :: rest) = pyUpdate (pySet d p.1 p.2) rest := rfl
    rw [this, ih (pySet d p.1 p.2) (fun q hq => h q (by simp [hq])),
      pyGet_pySet_ne _ _ _ _ hp]

theorem mem_pyFromPairs (ps : List (String × String)) (q : String × Value)
    (h : q ∈ pyFromPairs ps) : ∃ pr ∈ ps, q.1 = pr.1 := by
  suffices H : ∀ acc : PyDict, q ∈ ps.foldl (fun a p => pySet a p.1 (Value.vstr p.2)) acc →
      q ∈ acc ∨ ∃ pr ∈ ps, q.1 = pr.1 by
    rcases H [] h with h₂ | h₂
    · simp at h₂
    · exact h₂
  clear h
  induction ps with
  | nil => intro acc h; left; exact h
  | cons p rest ih =>
    intro acc h
    rcases ih (pySet acc p.1 (Value.vstr p.2)) h with h₂ | h₂
    · rcases mem_pySet _ _ _ _ h₂ with h₃ | h₃
      · right; exact ⟨p, by simp, h₃⟩
      · left; exact h₃
    · obtain ⟨pr, hpr, hq⟩ := h₂
      right; exact ⟨pr, by simp [hpr], hq⟩

theorem pyGet_pyDel_self (d : PyDict) (k : String) :
    pyGet (pyDel d k) k = none := by
  induction d with
  | nil => rfl
  | cons p rest ih =>
    obtain ⟨k₁, v₁⟩ := p
    by_cases h : k₁ = k
    · simpa [pyDel, h] using ih
    · simpa [pyDel, pyGet, h] using ih

theorem pyGet_pyDel_ne (d : PyDict) (k₁ k : String) (h : k₁ ≠ k) :
    pyGet (pyDel d k₁) k = pyGet d k := by
  induction d with
  | nil => rfl
  | cons p rest ih =>
    obtain ⟨k₂, v₂⟩ := p
    by_cases h₂ : k₂ = k₁
    · subst h₂
      simpa [pyDel, pyGet, h] using ih
    · by_cases h₃ : k₂ = k
      · subst h₃; simp [pyDel, pyGet, h₂]
      · simpa [pyDel, pyGet, h₂, h₃] using ih

-- ## seqOption lemmas

theorem seqOption_isSome_iff {α : Type} (os : List (Option α)) :
    (seqOption os).isSome = true ↔ ∀ o ∈ os, o.isSome = true := by
  induction os with
  | nil => simp [seqOption]
  | cons o rest ih =>
    cases o with
    | none => simp [seqOption]
    | some a => simpa [seqOption] using ih

theorem seqOption_cons {α : Type} (o : Option α) (os : List (Option α))
    (r : List α) (h : seqOption (o :: os) = some r) :
    ∃ a r₀, o = some a ∧ seqOption os = some r₀ ∧ r = a :: r₀ := by
  cases o with
  | none => simp [seqOption] at h
  | some a =>
    simp only [seqOption] at h
    cases hrest : seqOption os with
    | none => rw [hrest] at h; simp at h
    | some r₀ =>
      rw [hrest] at h
      simp at h
      exact ⟨a, r₀, rfl, rfl, h.symm⟩

theorem seqOption_mem {α β : Type} (l : List α) (f : α → Option β)
    (r : List β) (h : seqOption (l.map f) = some r) :
    ∀ b ∈ r, ∃ a ∈ l, f a = some b := by
  induction l generalizing r with
  | nil =>
    simp [seqOption] at h
    subst h
    simp
  | cons a rest ih =>
    simp only [List.map] at h
    obtain ⟨b₀, r₀, hfa, hrest, hr⟩ := seqOption_cons _ _ _ h
    subst hr
    intro b hb
    rcases List.mem_cons.mp hb with hb | hb
    · exact ⟨a, by simp, hb ▸ hfa⟩
    · obtain ⟨a₁, ha₁, hfa₁⟩ := ih r₀ hrest b hb
      exact ⟨a₁, by simp [ha₁], hfa₁⟩

theorem seqOption_map_eq {α β : Type} (l : List α) (f : α → Option β)
    (dflt : β) (r : List β) (h : seqOption (l.map f) = some r) :
    r = l.map (fun x => (f x).getD dflt) := by
  induction l generalizing r with
  | nil =>
    simp [seqOption] at h
    subst h
    simp
  | cons a rest ih =>
    simp only [List.map] at h ⊢
    obtain ⟨b₀, r₀, hfa, hrest, hr⟩ := seqOption_cons _ _ _ h
    subst hr
    rw [hfa]
    simp [ih r₀ hrest]

theorem seqOption_length {α : Type} (os : List (Option α)) (r : List α)
    (h : seqOption os = some r) : r.length = os.length := by
  induction os generalizing r with
  | nil =>
    simp [seqOption] at h
    subst h
    rfl
  | cons o rest ih =>
    obtain ⟨a, r₀, ho, hrest, hr⟩ := seqOption_cons _ _ _ h
    subst hr
    simp [ih r₀ hrest]

-- ## Delimiter-index lemmas

theorem delimIdxsFrom_length (i : Nat) (ls : List String) :
    (delimIdxsFrom i ls).length
      = (ls.filter (fun l => pyStartsWith l "---")).length := by
  induction ls generalizing i with
  | nil => rfl
  | cons l rest ih =>
    by_cases h : pyStartsWith l "---"
    · simp [delimIdxsFrom, List.filter, h, ih]
    · simp only [delimIdxsFrom, List.filter, h]
      simp only [Bool.false_eq_true, if_false]
      rw [ih]

theorem delimiterIdxs_length (lines : List String) :
    (delimiterIdxs lines).length
      = (lines.filter (fun l => pyStartsWith l "---")).length :=
  delimIdxsFrom_length 0 lines

theorem delimIdxsFrom_shift (i : Nat) (ls : List String) :
    delimIdxsFrom i ls = (delimIdxsFrom 0 ls).map (fun j => j + i) := by
  induction ls generalizing i with
  | nil => rfl
  | cons l rest ih =>
    by_cases h : pyStartsWith l "---"
    · simp only [delimIdxsFrom, h, if_true]
      rw [ih (i + 1), ih 1]
      have hfun : ((fun j => j + i) ∘ fun j : Nat => j + 1) = fun j => j + (i + 1) := by
        funext j
        simp only [Function.comp_apply]
        omega
      simp only [List.map_cons, List.map_map, Nat.zero_add, hfun]
    · simp only [delimIdxsFrom, h]
      simp only [Bool.false_eq_true, if_false]
      rw [ih (i + 1), ih 1]
      have hfun : ((fun j => j + i) ∘ fun j : Nat => j + 1) = fun j => j + (i + 1) := by
        funext j
        simp only [Function.comp_apply]
        omega
      simp only [List.map_map, hfun]

theorem delimIdxsFrom_append_clean (i : Nat) (pre ls : List String)
    (h : ∀ l ∈ pre, pyStartsWith l "---" = false) :
    delimIdxsFrom i (pre ++ ls) = delimIdxsFrom (i + pre.length) ls := by
  induction pre generalizing i with
  | nil => simp
  | cons p rest ih =>
    have hp : pyStartsWith p "---" = false := h p (by simp)
    have hstep : (p :: rest) ++ ls = p :: (rest ++ ls) := rfl
    rw [hstep]
    simp only [delimIdxsFrom, hp]
    simp only [Bool.false_eq_true, if_false]
    rw [ih (i + 1) (fun l hl => h l (by simp [hl]))]
    congr 1
    simp only [List.length_cons]
    omega

theorem delimiterIdxs_append_clean (pre ls : List String)
    (h : ∀ l ∈ pre, pyStartsWith l "---" = false) :
    delimiterIdxs (pre ++ ls) = (delimiterIdxs ls).map (fun j => j + pre.length) := by
  unfold delimiterIdxs
  rw [delimIdxsFrom_append_clean 0 pre ls h, delimIdxsFrom_shift]
  simp

-- ## rsplit lemma

theorem rsplitDotAux_eq_none (cs : List Char) (h : '.' ∉ cs) :
    rsplitDotAux cs = none := by
  induction cs with
  | nil => rfl
  | cons c rest ih =>
    have hc : c ≠ '.' := by
      intro hc
      exact h (by simp [hc])
    have hr : '.' ∉ rest := fun hm => h (by simp [hm])
    simp [rsplitDotAux, ih hr, hc]

-- ## Sorting lemmas

theorem mem_insertDesc {α : Type} (key : α → Nat) (a b : α) (l : List α) :
    b ∈ insertDesc key a l ↔ b = a ∨ b ∈ l := by
  induction l with
  | nil => simp [insertDesc]
  | cons c rest ih =>
    by_cases h : key a < key c
    · simp only [insertDesc, h, if_true, List.mem_cons, ih]
      tauto
    · simp [insertDesc, h, List.mem_cons]

theorem length_insertDesc {α : Type} (key : α → Nat) (a : α) (l : List α) :
    (insertDesc key a l).length = l.length + 1 := by
  induction l with
  | nil => rfl
  | cons c rest ih =>
    by_cases h : key a < key c
    · simp [insertDesc, h, ih]
    · simp [insertDesc, h]

theorem pairwise_insertDesc {α : Type} (key : α → Nat) (a : α) (l : List α)
    (h : l.Pairwise (fun x y => key y ≤ key x)) :
    (insertDesc key a l).Pairwise (fun x y => key y ≤ key x) := by
  induction l with
  | nil => simp [insertDesc]
  | cons c rest ih =>
    rcases List.pairwise_cons.mp h with ⟨hc, hrest⟩
    by_cases hlt : key a < key c
    · simp only [insertDesc, hlt, if_true]
      refine List.pairwise_cons.mpr ⟨?_, ih hrest⟩
      intro b hb
      rcases (mem_insertDesc key a b rest).mp hb with hb | hb
      · subst hb; omega
      · exact hc b hb
    · simp only [insertDesc, hlt, if_false]
      refine List.pairwise_cons.mpr ⟨?_, h⟩
      intro b hb
      rcases List.mem_cons.mp hb with hb | hb
      · subst hb; omega
      · have := hc b hb
        omega

theorem mem_sortByKeyDesc {α : Type} (key : α → Nat) (l : List α) (b : α) :
    b ∈ sortByKeyDesc key l ↔ b ∈ l := by
  induction l with
  | nil => simp [sortByKeyDesc]
  | cons a rest ih =>
    simp only [sortByKeyDesc, mem_insertDesc, List.mem_cons, ih]

theorem length_sortByKeyDesc {α : Type} (key : α → Nat) (l : List α) :
    (sortByKeyDesc key l).length = l.length := by
  induction l with
  | nil => rfl
  | cons a rest ih =>
    simp [sortByKeyDesc, length_insertDesc, ih]

theorem pairwise_sortByKeyDesc {α : Type} (key : α → Nat) (l : List α) :
    (sortByKeyDesc key l).Pairwise (fun x y => key y ≤ key x) := by
  induction l with
  | nil => simp [sortByKeyDesc]
  | cons a rest ih => exact pairwise_insertDesc key a _ ih

-- ## Parser-shape lemmas

theorem parseBody_ne_malformedHeader (cfg : Config) (nowStr fn : String)
    (hdr : List String) (content : String) :
    parseBody cfg nowStr fn hdr content ≠ .error .malformedHeader := by
  unfold parseBody
  split
  · simp
  · split
    · simp
    · simp

theorem parseHeaderLine_isSome_iff (l : String) :
    (parseHeaderLine l).isSome = true ↔
      (splitColonSpace (remove_newlines_strip l).data).length = 2 := by
  unfold parseHeaderLine
  rcases hs : splitColonSpace (remove_newlines_strip l).data with _ | ⟨a, _ | ⟨b, _ | ⟨c, t⟩⟩⟩
  · simp
  · simp
  · simp
  · simp

theorem headerSlice_append (pre lines : List String) (hb he : Nat) :
    headerSlice (pre ++ lines) (hb + pre.length) (he + pre.length)
      = headerSlice lines hb he := by
  unfold headerSlice
  have h₁ : hb + pre.length + 1 = pre.length + (hb + 1) := by omega
  rw [h₁, List.drop_append]
  congr 1
  omega

theorem drop_append_shift (pre lines : List String) (he : Nat) :
    (pre ++ lines).drop (he + pre.length + 1) = lines.drop (he + 1) := by
  have h₁ : he + pre.length + 1 = pre.length + (he + 1) := by omega
  rw [h₁, List.drop_append]

-- ## Outbox-shape lemmas

theorem sortNotes_inv (notes sorted : List PyDict)
    (h : sortNotes notes = some sorted) :
    sorted = sortByKeyDesc (fun n => (pySortKey n).getD 0) notes
    ∧ ∀ n ∈ notes, (pySortKey n).isSome = true := by
  unfold sortNotes at h
  by_cases hall : notes.all (fun n => (pySortKey n).isSome) = true
  · rw [if_pos hall] at h
    exact ⟨(Option.some.inj h).symm, List.all_eq_true.mp hall⟩
  · rw [if_neg hall] at h
    exact absurd h (by simp)

theorem sortNotes_isSome (notes : List PyDict)
    (h : ∀ n ∈ notes, (pySortKey n).isSome = true) :
    (sortNotes notes).isSome = true := by
  unfold sortNotes
  rw [if_pos (List.all_eq_true.mpr h)]
  rfl

theorem keptNotes_sublist (p : Int) (l : List PyDict) :
    (keptNotes p l).Sublist l := by
  unfold keptNotes pySliceTo
  split
  · split
    · exact List.take_sublist _ _
    · exact List.take_sublist _ _
  · exact List.Sublist.refl l

theorem length_keptNotes (p : Int) (l : List PyDict) :
    (keptNotes p l).length = truncatedCount p l.length := by
  unfold keptNotes truncatedCount pySliceTo
  by_cases h0 : p = 0
  · subst h0
    simp
  · by_cases hpos : 0 < p
    · by_cases hlt : p < (l.length : Int)
      · rw [if_pos ⟨h0, hlt⟩, if_pos (by omega), if_pos hpos]
        simp [List.length_take]
      · rw [if_neg (by tauto), if_pos hpos]
        have : (l.length : Int) ≤ p := by omega
        have h₂ : l.length ≤ p.toNat := by omega
        omega
    · have hneg : p < 0 := by omega
      have hlt : p < (l.length : Int) := by omega
      rw [if_pos ⟨h0, hlt⟩, if_neg (by omega), if_neg hpos, if_neg h0]
      simp [List.length_take]

theorem keptNotes_pos_take (p : Int) (l : List PyDict) (hp : 0 < p) :
    keptNotes p l = l.take p.toNat := by
  unfold keptNotes pySliceTo
  by_cases hlt : p < (l.length : Int)
  · rw [if_pos ⟨by omega, hlt⟩, if_pos (by omega)]
  · rw [if_neg (by tauto)]
    have : l.length ≤ p.toNat := by omega
    rw [List.take_of_length_le this]

-- ## Activity-derivation inversion

theorem generate_some_inv (cfg : Config) (nowStr : String) (note cr nt : PyDict)
    (h : generate_create_activity cfg nowStr note = some (cr, nt)) :
    nt = pyDel note "@context"
    ∧ ∃ filename note_id ext,
        pyGet (pyDel note "@context") "filename" = some (Value.vstr filename)
        ∧ rsplitDot filename = some (note_id, ext)
        ∧ cr = [("id", Value.vstr (cfg.domain ++ "/posts/" ++ note_id)),
                ("type", Value.vstr "Create"),
                ("actor", Value.vstr cfg.actor_id),
                ("published",
                  pyGetD (pyDel note "@context") "published" (Value.vstr nowStr)),
                ("to", Value.vlist
                  [Value.vstr "https://www.w3.org/ns/activitystreams#Public"]),
                ("object", Value.vdict (pyDel note "@context"))] := by
  simp only [generate_create_activity] at h
  split at h
  · split at h
    · rename_i filename hfn
      split at h
      · rename_i note_id ext hsplit
        rw [Option.some.injEq, Prod.mk.injEq] at h
        obtain ⟨hcr, hnt⟩ := h
        subst hcr
        subst hnt
        exact ⟨rfl, filename, note_id, ext, hfn, hsplit, rfl⟩
      · exact absurd h (by simp)
    · exact absurd h (by simp)
  · exact absurd h (by simp)

theorem generate_preserves_published (cfg : Config) (nowStr : String)
    (n cr nt : PyDict) (s : String)
    (hg : generate_create_activity cfg nowStr n = some (cr, nt))
    (hp : pyGet n "published" = some (Value.vstr s)) :
    pyGet cr "published" = some (Value.vstr s) := by
  obtain ⟨hnt, filename, note_id, ext, hfn, hsplit, hcr⟩ :=
    generate_some_inv cfg nowStr n cr nt hg
  subst hcr
  have hdel : pyGet (pyDel n "@context") "published" = some (Value.vstr s) := by
    rw [pyGet_pyDel_ne n "@context" "published" (by decide), hp]
  have hred : pyGet
      [("id", Value.vstr (cfg.domain ++ "/posts/" ++ note_id)),
       ("type", Value.vstr "Create"),
       ("actor", Value.vstr cfg.actor_id),
       ("published",
         pyGetD (pyDel n "@context") "published" (Value.vstr nowStr)),
       ("to", Value.vlist
         [Value.vstr "https://www.w3.org/ns/activitystreams#Public"]),
       ("object", Value.vdict (pyDel n "@context"))] "published"
      = some (pyGetD (pyDel n "@context") "published" (Value.vstr nowStr)) := rfl
  rw [hred]
  unfold pyGetD
  rw [hdel]
  rfl

-- ## Outbox inversion

theorem create_outbox_inv (cfg : Config) (nowStr : String)
    (notes : List PyDict) (toots outbox : PyDict)
    (h : create_outbox cfg nowStr notes = some (toots, outbox)) :
    ∃ sorted items, sortNotes notes = some sorted
      ∧ seqOption ((keptNotes cfg.paginate_by sorted).map (fun note =>
          (generate_create_activity cfg nowStr note).map
            (fun p => Value.vdict p.1))) = some items
      ∧ toots = tootsDict cfg items ∧ outbox = outboxDict cfg items := by
  unfold create_outbox at h
  cases hsort : sortNotes notes with
  | none => rw [hsort] at h; simp at h
  | some sorted =>
    rw [hsort, Option.some_bind] at h
    rw [Option.map_eq_some'] at h
    obtain ⟨items, hseq, hpair⟩ := h
    rw [Prod.mk.injEq] at hpair
    exact ⟨sorted, items, rfl, hseq, hpair.1.symm, hpair.2.symm⟩

-- ## Claim C3

/-- Claim C3: `parse_notes` fails with the `MalformedHeaderError`
(`ParseErr.malformedHeader`) exactly when the number of input lines starting
with `---` differs from two; when it succeeds the note's `content` is the
unmodified concatenation of all lines after the second delimiter line, and
lines before the first delimiter are ignored (prepending any preamble free
of delimiter lines leaves the result unchanged). -/
theorem parse_delimiters_content (cfg : Config) (nowStr fn : String)
    (lines : List String) :
    (parse_notes cfg nowStr fn lines = .error .malformedHeader ↔
      (lines.filter (fun l => pyStartsWith l "---")).length ≠ 2)
    ∧ (∀ note, parse_notes cfg nowStr fn lines = .ok note →
        ∃ hb he, delimiterIdxs lines = [hb, he]
          ∧ pyGet note "content"
              = some (Value.vstr (String.join (lines.drop (he + 1)))))
    ∧ (∀ pre : List String, (∀ l ∈ pre, pyStartsWith l "---" = false) →
        parse_notes cfg nowStr fn (pre ++ lines)
          = parse_notes cfg nowStr fn lines) := by
  refine ⟨?_, ?_, ?_⟩
  · rw [← delimiterIdxs_length]
    unfold parse_notes
    rcases hidx : delimiterIdxs lines with _ | ⟨a, _ | ⟨b, _ | ⟨c, t⟩⟩⟩
    · simp
    · simp
    · constructor
      · intro h
        exact absurd h (parseBody_ne_malformedHeader cfg nowStr fn _ _)
      · intro h
        exact absurd rfl h
    · constructor
      · intro _
        simp only [List.length_cons]
        omega
      · intro _
        rfl
  · intro note h
    unfold parse_notes at h
    rcases hidx : delimiterIdxs lines with _ | ⟨a, _ | ⟨b, _ | ⟨c, t⟩⟩⟩ <;>
      rw [hidx] at h
    · exact absurd h (by simp)
    · exact absurd h (by simp)
    · refine ⟨a, b, rfl, ?_⟩
      have h₂ : parseBody cfg nowStr fn (headerSlice lines a b)
          (String.join (lines.drop (b + 1))) = .ok note := h
      simp only [parseBody] at h₂
      rcases hfn : rsplitDot fn with _ | ⟨nid, ext⟩ <;> rw [hfn] at h₂
      · exact absurd h₂ (by simp)
      · rcases hseq : seqOption ((headerSlice lines a b).map parseHeaderLine)
          with _ | pairs <;> rw [hseq] at h₂
        · exact absurd h₂ (by simp)
        · rw [Except.ok.injEq] at h₂
          subst h₂
          by_cases hpub : (pyGet (pySet
              (pyUpdate (baseNote cfg fn nid) (pyFromPairs pairs)) "content"
              (Value.vstr (String.join (lines.drop (b + 1))))) "published").isSome = true
          · rw [if_pos hpub, pyGet_pySet_self]
          · rw [if_neg hpub, pyGet_pySet_ne _ _ _ _ (by decide), pyGet_pySet_self]
    · exact absurd h (by simp)
  · intro pre hpre
    unfold parse_notes
    rw [delimiterIdxs_append_clean pre lines hpre]
    rcases hidx : delimiterIdxs lines with _ | ⟨a, _ | ⟨b, _ | ⟨c, t⟩⟩⟩
    · rfl
    · rfl
    · simp only [List.map_cons, List.map_nil]
      show parseBody cfg nowStr fn
          (headerSlice (pre ++ lines) (a + pre.length) (b + pre.length))
          (String.join ((pre ++ lines).drop (b + pre.length + 1)))
        = parseBody cfg nowStr fn (headerSlice lines a b)
          (String.join (lines.drop (b + 1)))
      rw [headerSlice_append, drop_append_shift]
    · rfl

theorem parse_delimiters_content_witness :
    parse_notes cfgEx nowEx "a.txt" ["---\n", "body\n"] = .error .malformedHeader
    ∧ pyGet noteParsedEx "content" = some (Value.vstr "body\n")
    ∧ parse_notes cfgEx nowEx "hello.txt"
        (["preamble\n"] ++ ["---\n", "---\n", "body\n"])
        = parse_notes cfgEx nowEx "hello.txt" ["---\n", "---\n", "body\n"] := by
  refine ⟨?_, ?_, ?_⟩
  · exact (parse_delimiters_content cfgEx nowEx "a.txt" ["---\n", "body\n"]).1.mpr
      (by decide)
  · obtain ⟨hb, he, hidx, hc⟩ :=
      (parse_delimiters_content cfgEx nowEx "hello.txt"
        ["---\n", "---\n", "body\n"]).2.1 noteParsedEx (by rfl)
    have h01 : delimiterIdxs ["---\n", "---\n", "body\n"] = [0, 1] := by rfl
    rw [h01] at hidx
    injection hidx with h₁ h₂
    injection h₂ with h₃ h₄
    rw [← h₃] at hc
    exact hc
  · exact (parse_delimiters_content cfgEx nowEx "hello.txt"
      ["---\n", "---\n", "body\n"]).2.2 ["preamble\n"] (by decide)

-- ## Claim C9

/-- Claim C9: for a filename containing no dot, `parse_notes` never produces
a note: the `rsplit(".", 1)` unpacking fails; when the delimiter check
passes (exactly two `---` lines) the failure is the unpacking `ValueError`
(`ParseErr.filenameUnpack`), not the `MalformedHeaderError`. -/
theorem parse_requires_dotted_filename (cfg : Config) (nowStr fn : String)
    (lines : List String) (h : '.' ∉ fn.data) :
    (∀ note, parse_notes cfg nowStr fn lines ≠ .ok note)
    ∧ ((lines.filter (fun l => pyStartsWith l "---")).length = 2 →
        parse_notes cfg nowStr fn lines = .error .filenameUnpack) := by
  have hfn : rsplitDot fn = none := by
    unfold rsplitDot
    rw [rsplitDotAux_eq_none fn.data h]
    rfl
  constructor
  · intro note hok
    unfold parse_notes at hok
    rcases hidx : delimiterIdxs lines with _ | ⟨a, _ | ⟨b, _ | ⟨c, t⟩⟩⟩ <;>
      rw [hidx] at hok
    · exact absurd hok (by simp)
    · exact absurd hok (by simp)
    · have h₂ : parseBody cfg nowStr fn (headerSlice lines a b)
          (String.join (lines.drop (b + 1))) = .ok note := hok
      simp only [parseBody] at h₂
      rw [hfn] at h₂
      exact absurd h₂ (by simp)
    · exact absurd hok (by simp)
  · intro hlen
    rw [← delimiterIdxs_length] at hlen
    unfold parse_notes
    rcases hidx : delimiterIdxs lines with _ | ⟨a, _ | ⟨b, _ | ⟨c, t⟩⟩⟩ <;>
      rw [hidx] at hlen
    · simp at hlen
    · simp at hlen
    · show parseBody cfg nowStr fn (headerSlice lines a b)
          (String.join (lines.drop (b + 1))) = .error .filenameUnpack
      simp only [parseBody]
      rw [hfn]
    · simp only [List.length_cons] at hlen
      omega

theorem parse_requires_dotted_filename_witness :
    parse_notes cfgEx nowEx "noext" ["---\n", "---\n", "body\n"]
        = .error .filenameUnpack
    ∧ parse_notes cfgEx nowEx "noext" ["---\n"] ≠ .ok [] := by
  constructor
  · exact (parse_requires_dotted_filename cfgEx nowEx "noext"
      ["---\n", "---\n", "body\n"] (by decide)).2 (by decide)
  · exact (parse_requires_dotted_filename cfgEx nowEx "noext" ["---\n"]
      (by decide)).1 []

-- ## Claim C1

/-- Claim C1 counterexample: a header line `id: ...` DOES override the
internally computed filename-derived id, because the header merge
(`object_note.update(...)`) runs after the base object is built. -/
theorem parse_id_header_overrides_cex :
    (parse_notes cfgEx nowEx "hello.txt"
        ["---\n", "id: https://evil.example/override\n", "---\n", "body\n"]).toOption.bind
        (fun n => pyGet n "id")
      = some (Value.vstr "https://evil.example/override")
    ∧ Value.vstr "https://evil.example/override"
        ≠ Value.vstr (cfgEx.domain ++ "/posts/" ++ "hello") := by
  constructor
  · rfl
  · intro h
    injection h with h₂
    exact absurd h₂ (by decide)

/-- Claim C1 (amended): the filename-derived id is only the DEFAULT: when no
header line parses to the key `id`, the note's `id` equals
`{domain}/posts/{filename without final extension}`; a header `id` key
overrides it (see the counterexample). -/
theorem parse_id_filename_derived_without_id_header (cfg : Config)
    (nowStr fn : String) (lines : List String) (note : PyDict)
    (hb he : Nat) (nid ext : String)
    (hok : parse_notes cfg nowStr fn lines = .ok note)
    (hidx : delimiterIdxs lines = [hb, he])
    (hfn : rsplitDot fn = some (nid, ext))
    (hno : ∀ l ∈ headerSlice lines hb he, ∀ k v,
        parseHeaderLine l = some (k, v) → k ≠ "id") :
    pyGet note "id" = some (Value.vstr (cfg.domain ++ "/posts/" ++ nid)) := by
  unfold parse_notes at hok
  rw [hidx] at hok
  have h₂ : parseBody cfg nowStr fn (headerSlice lines hb he)
      (String.join (lines.drop (he + 1))) = .ok note := hok
  simp only [parseBody] at h₂
  rw [hfn] at h₂
  rcases hseq : seqOption ((headerSlice lines hb he).map parseHeaderLine)
    with _ | pairs <;> rw [hseq] at h₂
  · exact absurd h₂ (by simp)
  · rw [Except.ok.injEq] at h₂
    subst h₂
    have hpairs : ∀ pr ∈ pairs, pr.1 ≠ "id" := by
      intro pr hpr
      obtain ⟨l, hl, hfl⟩ := seqOption_mem _ _ _ hseq pr hpr
      exact hno l hl pr.1 pr.2 hfl
    have hupd : ∀ q ∈ pyFromPairs pairs, q.1 ≠ "id" := by
      intro q hq
      obtain ⟨pr, hpr, heq⟩ := mem_pyFromPairs _ _ hq
      rw [heq]
      exact hpairs pr hpr
    have hbase : pyGet (baseNote cfg fn nid) "id"
        = some (Value.vstr (cfg.domain ++ "/posts/" ++ nid)) := rfl
    by_cases hpub : (pyGet (pySet
        (pyUpdate (baseNote cfg fn nid) (pyFromPairs pairs)) "content"
        (Value.vstr (String.join (lines.drop (he + 1))))) "published").isSome = true
    · rw [if_pos hpub, pyGet_pySet_ne _ _ _ _ (by decide),
        pyGet_pyUpdate_not_mem _ _ _ hupd, hbase]
    · rw [if_neg hpub, pyGet_pySet_ne _ _ _ _ (by decide),
        pyGet_pySet_ne _ _ _ _ (by decide),
        pyGet_pyUpdate_not_mem _ _ _ hupd, hbase]

theorem parse_id_filename_derived_without_id_header_witness :
    pyGet noteParsedEx "id"
      = some (Value.vstr (cfgEx.domain ++ "/posts/" ++ "hello")) := by
  refine parse_id_filename_derived_without_id_header cfgEx nowEx "hello.txt"
    ["---\n", "---\n", "body\n"] noteParsedEx 0 1 "hello" "txt"
    (by rfl) (by rfl) (by rfl) ?_
  intro l hl
  have : headerSlice ["---\n", "---\n", "body\n"] 0 1 = [] := rfl
  rw [this] at hl
  exact absurd hl (by simp)

-- ## Claim C2

/-- Claim C2 counterexample: a header value containing `": "` is NOT
preserved: `split(": ")` has no maxsplit bound, the line splits into three
parts and the unpacking raises, so the parse fails instead of producing a
note. -/
theorem parse_value_with_sep_fails_cex :
    parse_notes cfgEx nowEx "a.txt" ["---\n", "note: hello: world\n", "---\n"]
      = .error .malformedHeaderLine := by
  rfl

/-- Claim C2 (amended): `split(": ")` splits on EVERY occurrence, so with
the delimiters and filename in order, the parse succeeds exactly when every
header line contains exactly one `": "` occurrence (two parts); both a line
with no separator and a line whose value contains `": "` make the parse
fail. -/
theorem parse_header_exactly_two_parts (cfg : Config) (nowStr fn : String)
    (lines : List String) (hb he : Nat) (p : String × String)
    (hidx : delimiterIdxs lines = [hb, he])
    (hfn : rsplitDot fn = some p) :
    (∃ note, parse_notes cfg nowStr fn lines = .ok note) ↔
      ∀ l ∈ headerSlice lines hb he,
        (splitColonSpace (remove_newlines_strip l).data).length = 2 := by
  obtain ⟨nid, ext⟩ := p
  unfold parse_notes
  rw [hidx]
  have hbody : ∀ note : PyDict,
      (parseBody cfg nowStr fn (headerSlice lines hb he)
        (String.join (lines.drop (he + 1))) = .ok note) ↔
      (parseBody cfg nowStr fn (headerSlice lines hb he)
        (String.join (lines.drop (he + 1))) = .ok note) := fun _ => Iff.rfl
  show (∃ note, parseBody cfg nowStr fn (headerSlice lines hb he)
      (String.join (lines.drop (he + 1))) = .ok note) ↔ _
  simp only [parseBody]
  rw [hfn]
  rcases hseq : seqOption ((headerSlice lines hb he).map parseHeaderLine)
    with _ | pairs
  · constructor
    · intro ⟨note, hnote⟩
      exact absurd hnote (by simp)
    · intro hall
      have : (seqOption ((headerSlice lines hb he).map parseHeaderLine)).isSome = true := by
        rw [seqOption_isSome_iff]
        intro o ho
        obtain ⟨l, hl, hfl⟩ := List.mem_map.mp ho
        rw [← hfl]
        exact (parseHeaderLine_isSome_iff l).mpr (hall l hl)
      rw [hseq] at this
      exact absurd this (by simp)
  · constructor
    · intro _
      intro l hl
      have : (seqOption ((headerSlice lines hb he).map parseHeaderLine)).isSome = true := by
        rw [hseq]
        rfl
      rw [seqOption_isSome_iff] at this
      exact (parseHeaderLine_isSome_iff l).mp
        (this (parseHeaderLine l) (List.mem_map.mpr ⟨l, hl, rfl⟩))
    · intro _
      exact ⟨_, rfl⟩

theorem parse_header_exactly_two_parts_witness :
    ∃ note, parse_notes cfgEx nowEx "f.txt" ["---\n", "a: b\n", "---\n", "x"]
      = .ok note :=
  (parse_header_exactly_two_parts cfgEx nowEx "f.txt"
    ["---\n", "a: b\n", "---\n", "x"] 0 2 ("f", "txt")
    (by rfl) (by rfl)).mpr (by decide)

-- ## Claim C6

/-- Claim C6: `generate_create_activity` asserts its precondition — a note
whose `@context` is absent or falsy makes it fail — and on success the
Create activity wraps the note object itself (post-strip) as `object`, that
embedded object no longer contains `@context`, and the activity's
`published` equals the wrapped note's `published` whenever the note has
one. -/
theorem create_activity_context_precondition (cfg : Config) (nowStr : String)
    (note : PyDict) :
    (truthy (pyGetD note "@context" Value.vnull) = false →
      generate_create_activity cfg nowStr note = none)
    ∧ (∀ cr nt, generate_create_activity cfg nowStr note = some (cr, nt) →
        pyGet nt "@context" = none
        ∧ pyGet cr "object" = some (Value.vdict nt)
        ∧ ∀ s, pyGet note "published" = some (Value.vstr s) →
            pyGet cr "published" = some (Value.vstr s)) := by
  constructor
  · intro hfalse
    unfold generate_create_activity
    rw [hfalse]
    rfl
  · intro cr nt h
    obtain ⟨hnt, filename, note_id, ext, hfn, hsplit, hcr⟩ :=
      generate_some_inv cfg nowStr note cr nt h
    refine ⟨?_, ?_, ?_⟩
    · rw [hnt]
      exact pyGet_pyDel_self note "@context"
    · rw [hcr, hnt]
      rfl
    · intro s hs
      exact generate_preserves_published cfg nowStr note cr nt s h hs

theorem create_activity_context_precondition_witness :
    generate_create_activity cfgEx nowEx [] = none
    ∧ pyGet noteExAfter "@context" = none
    ∧ pyGet createEx "object" = some (Value.vdict noteExAfter)
    ∧ pyGet createEx "published"
        = some (Value.vstr "2024-01-01T00:00:00Z") := by
  refine ⟨?_, ?_, ?_, ?_⟩
  · exact (create_activity_context_precondition cfgEx nowEx []).1 (by decide)
  · exact (((create_activity_context_precondition cfgEx nowEx noteEx).2
      createEx noteExAfter (by rfl)).1)
  · exact (((create_activity_context_precondition cfgEx nowEx noteEx).2
      createEx noteExAfter (by rfl)).2.1)
  · exact (((create_activity_context_precondition cfgEx nowEx noteEx).2
      createEx noteExAfter (by rfl)).2.2 "2024-01-01T00:00:00Z" (by rfl))

-- ## Claim C7

/-- Claim C7 counterexample: deriving a Create activity MUTATES the parsed
note: `del note["@context"]` removes a key in place, so the note object
after derivation differs from the note as parsed. -/
theorem note_mutated_by_derivation_cex :
    (generate_create_activity cfgEx nowEx noteEx).map (fun p => p.2)
      ≠ some noteEx := by
  intro h
  have h₃ : (some [("filename", Value.vstr "hello.txt"),
      ("published", Value.vstr "2024-01-01T00:00:00Z"),
      ("content", Value.vstr "hi")] : Option PyDict) = some noteEx := by
    rw [← h]
    rfl
  have h₄ := Option.some.inj h₃
  have h₅ := congrArg List.length h₄
  simp [noteEx] at h₅

/-- Claim C7 (amended): the only mutation the pipeline performs on a parsed
note is that activity derivation deletes its `@context` key in place; every
other key keeps exactly the value it had when `parse` returned. -/
theorem derivation_mutates_only_context (cfg : Config) (nowStr : String)
    (note cr nt : PyDict)
    (h : generate_create_activity cfg nowStr note = some (cr, nt)) :
    nt = pyDel note "@context"
    ∧ pyGet nt "@context" = none
    ∧ ∀ k, k ≠ "@context" → pyGet nt k = pyGet note k := by
  obtain ⟨hnt, _, _, _, _, _, _⟩ := generate_some_inv cfg nowStr note cr nt h
  refine ⟨hnt, ?_, ?_⟩
  · rw [hnt]
    exact pyGet_pyDel_self note "@context"
  · intro k hk
    rw [hnt]
    exact pyGet_pyDel_ne note "@context" k (Ne.symm hk)

theorem derivation_mutates_only_context_witness :
    noteExAfter = pyDel noteEx "@context"
    ∧ pyGet noteExAfter "@context" = none
    ∧ pyGet noteExAfter "published" = pyGet noteEx "published" := by
  refine ⟨?_, ?_, ?_⟩
  · exact (derivation_mutates_only_context cfgEx nowEx noteEx createEx
      noteExAfter (by rfl)).1
  · exact (derivation_mutates_only_context cfgEx nowEx noteEx createEx
      noteExAfter (by rfl)).2.1
  · exact (derivation_mutates_only_context cfgEx nowEx noteEx createEx
      noteExAfter (by rfl)).2.2 "published" (by decide)

-- ## Claim C8

/-- Claim C8: in the code BOTH image blocks of `create_actor` are guarded by
`banner_path.is_file()`. At the failing input where the icon file exists but
the banner file does not, the emitted actor document carries no `icon`
entry, contradicting the claimed inclusion condition; conversely, when the
banner exists but the icon does not, the run crashes in `copy`. -/
theorem actor_icon_guard_tests_banner :
    ((create_actor cfgEx (fun s => s == "files/icon.png") false).map
        (fun a => pyGet a "icon") = some none)
    ∧ ((fun s => s == "files/icon.png") cfgEx.icon = true)
    ∧ create_actor cfgEx (fun s => s == "files/banner.png") false = none := by
  refine ⟨rfl, rfl, rfl⟩

-- ## Claim C10

/-- Claim C10: collection assembly requires every note's `published` value
to be a string in the exact `%Y-%m-%dT%H:%M:%SZ` format: if any note
violates this the sort's key computation raises and no outbox is produced;
under the precondition the key function never fails and the sort goes
through. -/
theorem outbox_requires_strict_datetime (cfg : Config) (nowStr : String)
    (notes : List PyDict) :
    ((¬ ∀ n ∈ notes, (pySortKey n).isSome = true) →
      create_outbox cfg nowStr notes = none)
    ∧ ((∀ n ∈ notes, (pySortKey n).isSome = true) →
      (sortNotes notes).isSome = true) := by
  constructor
  · intro hbad
    have hsort : sortNotes notes = none := by
      unfold sortNotes
      rw [if_neg (fun hall => hbad (List.all_eq_true.mp hall))]
    unfold create_outbox
    rw [hsort]
    rfl
  · exact sortNotes_isSome notes

theorem outbox_requires_strict_datetime_witness :
    create_outbox cfgEx nowEx [badNote] = none
    ∧ (sortNotes [noteEx]).isSome = true := by
  constructor
  · exact (outbox_requires_strict_datetime cfgEx nowEx [badNote]).1 (by decide)
  · exact (outbox_requires_strict_datetime cfgEx nowEx [noteEx]).2 (by decide)

-- ## Claim C4

/-- Claim C4 counterexample: with pageSize = -1 (a truthy `int` the claim's
`otherwise` branch covers) and two valid notes, the Python slice
`notes_sorted[:-1]` drops the LAST entry: `totalItems` is 1, not the
claimed `len(notes) = 2`. -/
theorem outbox_negative_pagesize_cex :
    (create_outbox { cfgEx with paginate_by := -1 } nowEx [noteEx, noteEx2]).map
        (fun p => pyGet p.1 "totalItems") = some (some (Value.vint 1))
    ∧ (create_outbox { cfgEx with paginate_by := -1 } nowEx [noteEx, noteEx2]).map
        (fun p => pyGet p.1 "totalItems")
      ≠ some (some (Value.vint ([noteEx, noteEx2].length : Nat))) := by
  have heq : (create_outbox { cfgEx with paginate_by := -1 } nowEx
      [noteEx, noteEx2]).map (fun p => pyGet p.1 "totalItems")
      = some (some (Value.vint 1)) := rfl
  refine ⟨heq, ?_⟩
  rw [heq]
  intro hcontra
  simp at hcontra

/-- Claim C4 (amended): for every successful assembly both documents carry
`totalItems = truncatedCount pageSize len(notes)` — that is
`min(pageSize, len)` when `pageSize > 0`, `len` when `pageSize = 0`, and
`max(0, len + pageSize)` (a slice from the end) when `pageSize < 0` — and
when `pageSize > 0` the retained entries are exactly the activities of the
first `pageSize` notes of the descending sort. -/
theorem outbox_totalItems_eq (cfg : Config) (nowStr : String)
    (notes : List PyDict) (toots outbox : PyDict)
    (h : create_outbox cfg nowStr notes = some (toots, outbox)) :
    pyGet toots "totalItems"
        = some (Value.vint (truncatedCount cfg.paginate_by notes.length))
    ∧ pyGet outbox "totalItems"
        = some (Value.vint (truncatedCount cfg.paginate_by notes.length))
    ∧ (0 < cfg.paginate_by →
        ∃ sorted items, sortNotes notes = some sorted
          ∧ seqOption ((sorted.take cfg.paginate_by.toNat).map (fun note =>
              (generate_create_activity cfg nowStr note).map
                (fun p => Value.vdict p.1))) = some items
          ∧ pyGet toots "orderedItems" = some (Value.vlist items)) := by
  obtain ⟨sorted, items, hsort, hseq, htoots, houtbox⟩ :=
    create_outbox_inv cfg nowStr notes toots outbox h
  have hsortlen : sorted.length = notes.length := by
    rw [(sortNotes_inv notes sorted hsort).1]
    exact length_sortByKeyDesc _ notes
  have hitems : items.length = truncatedCount cfg.paginate_by notes.length := by
    have hlen := seqOption_length _ items hseq
    rw [List.length_map] at hlen
    rw [hlen, length_keptNotes, hsortlen]
  refine ⟨?_, ?_, ?_⟩
  · rw [htoots]
    show some (Value.vint items.length) = _
    rw [hitems]
  · rw [houtbox]
    show some (Value.vint items.length) = _
    rw [hitems]
  · intro hpos
    refine ⟨sorted, items, hsort, ?_, ?_⟩
    · rw [← keptNotes_pos_take cfg.paginate_by sorted hpos]
      exact hseq
    · rw [htoots]
      rfl

theorem outbox_totalItems_eq_witness :
    pyGet outboxResEx.1 "totalItems"
        = some (Value.vint (truncatedCount cfgEx.paginate_by 2))
    ∧ pyGet outboxResEx.2 "totalItems"
        = some (Value.vint (truncatedCount cfgEx.paginate_by 2)) := by
  have h := outbox_totalItems_eq cfgEx nowEx [noteEx, noteEx2]
    outboxResEx.1 outboxResEx.2 (by rfl)
  exact ⟨h.1, h.2.1⟩

-- ## Claim C5

theorem pySortKey_inv (n : PyDict) (k : Nat) (h : pySortKey n = some k) :
    ∃ s, pyGet n "published" = some (Value.vstr s)
      ∧ str_to_datetime s = some k := by
  unfold pySortKey at h
  rcases hp : pyGet n "published" with _ | v <;> rw [hp] at h
  · exact Option.noConfusion h
  · cases v with
    | vstr s => exact ⟨s, rfl, h⟩
    | vbool b => exact Option.noConfusion h
    | vint i => exact Option.noConfusion h
    | vlist l => exact Option.noConfusion h
    | vdict d => exact Option.noConfusion h
    | vnull => exact Option.noConfusion h

/-- Claim C5: the sequence of activities in the assembled OutboxPage is
non-increasing in `publishedAt` (newest first), and the empty note list is
not an error: it yields an empty sequence with `totalItems = 0`. -/
theorem outbox_sorted_desc (cfg : Config) (nowStr : String) :
    (∀ notes toots outbox items,
        create_outbox cfg nowStr notes = some (toots, outbox) →
        pyGet toots "orderedItems" = some (Value.vlist items) →
        items.Pairwise (fun a b => actKey b ≤ actKey a))
    ∧ (∃ toots outbox, create_outbox cfg nowStr [] = some (toots, outbox)
        ∧ pyGet toots "orderedItems" = some (Value.vlist [])
        ∧ pyGet toots "totalItems" = some (Value.vint 0)
        ∧ pyGet outbox "totalItems" = some (Value.vint 0)) := by
  constructor
  · intro notes toots outbox items h hitems
    obtain ⟨sorted, items₀, hsort, hseq, htoots, houtbox⟩ :=
      create_outbox_inv cfg nowStr notes toots outbox h
    rw [htoots] at hitems
    have hred : pyGet (tootsDict cfg items₀) "orderedItems"
        = some (Value.vlist items₀) := rfl
    rw [hred, Option.some.injEq] at hitems
    injection hitems with hitems
    subst hitems
    obtain ⟨hsorted, hkeys⟩ := sortNotes_inv notes sorted hsort
    have hkept : (keptNotes cfg.paginate_by sorted).Pairwise
        (fun x y => (pySortKey y).getD 0 ≤ (pySortKey x).getD 0) := by
      apply List.Pairwise.sublist (keptNotes_sublist cfg.paginate_by sorted)
      rw [hsorted]
      exact pairwise_sortByKeyDesc _ notes
    have hsome : ∀ n ∈ keptNotes cfg.paginate_by sorted,
        ((generate_create_activity cfg nowStr n).map
          (fun p => Value.vdict p.1)).isSome = true := by
      intro n hn
      have hsomeseq : (seqOption ((keptNotes cfg.paginate_by sorted).map
          (fun note => (generate_create_activity cfg nowStr note).map
            (fun p => Value.vdict p.1)))).isSome = true := by
        rw [hseq]
        rfl
      rw [seqOption_isSome_iff] at hsomeseq
      exact hsomeseq _ (List.mem_map.mpr ⟨n, hn, rfl⟩)
    have hmap := seqOption_map_eq _ _ Value.vnull items₀ hseq
    subst hmap
    rw [List.pairwise_map]
    have hkey : ∀ n ∈ keptNotes cfg.paginate_by sorted,
        actKey (((generate_create_activity cfg nowStr n).map
          (fun p => Value.vdict p.1)).getD Value.vnull)
          = (pySortKey n).getD 0 := by
      intro n hn
      have hnn : n ∈ notes := by
        have hmem : n ∈ sorted :=
          List.Sublist.mem hn (keptNotes_sublist cfg.paginate_by sorted)
        rw [hsorted] at hmem
        exact (mem_sortByKeyDesc _ notes n).mp hmem
      obtain ⟨k, hk⟩ := Option.isSome_iff_exists.mp (hkeys n hnn)
      obtain ⟨s, hps, hds⟩ := pySortKey_inv n k hk
      obtain ⟨v, hv⟩ := Option.isSome_iff_exists.mp (hsome n hn)
      rw [Option.map_eq_some'] at hv
      obtain ⟨⟨cr, nt⟩, hg, hvv⟩ := hv
      have hcrp := generate_preserves_published cfg nowStr n cr nt s hg hps
      rw [hg]
      show actKey (Value.vdict cr) = (pySortKey n).getD 0
      have hL : pySortKey cr = some k := by
        unfold pySortKey
        rw [hcrp]
        exact hds
      show (pySortKey cr).getD 0 = (pySortKey n).getD 0
      rw [hL, hk]
    refine List.Pairwise.imp_of_mem ?_ hkept
    intro a b ha hb hab
    rw [hkey a ha, hkey b hb]
    exact hab
  · have hkept : keptNotes cfg.paginate_by [] = [] := by
      unfold keptNotes
      split
      · unfold pySliceTo
        split <;> simp
      · rfl
    refine ⟨tootsDict cfg [], outboxDict cfg [], ?_, rfl, rfl, rfl⟩
    unfold create_outbox
    rw [show sortNotes [] = some [] from rfl, Option.some_bind, hkept]
    rfl

theorem outbox_sorted_desc_witness :
    itemsEx.Pairwise (fun a b => actKey b ≤ actKey a)
    ∧ pyGet ((create_outbox cfgEx nowEx []).getD ([], [])).1 "totalItems"
        = some (Value.vint 0) := by
  constructor
  · exact (outbox_sorted_desc cfgEx nowEx).1 [noteEx, noteEx2]
      outboxResEx.1 outboxResEx.2 itemsEx (by rfl) (by rfl)
  · obtain ⟨t, o, h₁, h₂, h₃, h₄⟩ := (outbox_sorted_desc cfgEx nowEx).2
    rw [h₁]
    exact h₃
